import Mathlib

/-!
Shallow embedding of the multi-client sync engine of time-tracker-4-browser:
the server-side row merge and processing (cdk/lambda/sync/sync.js), the
client-side outbound queue (BackgroundSyncService) and the hybrid transport
manager (HybridSyncManager), together with theorems settling the spec claims.

JavaScript numbers that hold integral metric values (focus, time, version,
lastModified) are embedded as Int; JS fields that may be `undefined` are
embedded as Option types, and the JS comparison `a > b`, which is false when
either side is `undefined`, is embedded accordingly.
-/

namespace SyncEngine

/-- A Stored Record of the hot table, as written by sync.js (`finalData`):
partition key `PK`, the metric fields, the optimistic-concurrency `version`,
the `ttl` marker, and the optional `conflictResolution` tag that the
newer-wins branch adds. -/
structure StoredRecord where
  pk : String
  clientId : String
  host : String
  date : String
  focus : Int
  time : Int
  sessionId : String
  lastModified : Int
  batchId : String
  version : Int
  ttl : Int
  conflictResolution : Option String
deriving Repr, DecidableEq

/-- The `incoming` argument that processRow passes to resolveConflict: the
uploaded row with `focus`/`time` already defaulted to 0 and `lastModified`
already defaulted to the current time. -/
structure IncomingRow where
  clientId : String
  host : String
  date : String
  focus : Int
  time : Int
  sessionId : String
  lastModified : Int
  batchId : String
deriving Repr, DecidableEq

/-- The `type` tag of a Conflict Record produced by resolveConflict. -/
inductive ConflictType where
  | session_conflict
  | timestamp_conflict
deriving Repr, DecidableEq

/-- The `overwritten` payload a session_conflict carries for audit. -/
structure Overwritten where
  focus : Int
  time : Int
  lastModified : Int
deriving Repr, DecidableEq

/-- A Conflict Record as pushed by resolveConflict; fields that only some
branches set are Options. -/
structure ConflictRecord where
  type : ConflictType
  clientId : String
  sessionId : String
  rejected : Option Bool
  reason : Option String
  overwritten : Option Overwritten
deriving Repr, DecidableEq

/-- generatePK from the shared lambda layer (utils.js). -/
def generatePK (clientId host date : String) : String :=
  clientId ++ "#" ++ host ++ "#" ++ date

/-- resolveConflict from sync.js. The impure `generateTTL(7)` call is passed
in as the `ttlNow` argument; everything else is the source branch for branch:
same session accumulates, different session with strictly newer incoming
takes per-field maxima and records a session_conflict, otherwise the existing
record is returned unchanged with a rejected timestamp_conflict. -/
def resolveConflict (ttlNow : Int) (existing : StoredRecord) (incoming : IncomingRow) :
    StoredRecord × List ConflictRecord :=
  if existing.sessionId = incoming.sessionId then
    ({ existing with
        focus := existing.focus + incoming.focus
        time := existing.time + incoming.time
        lastModified := max existing.lastModified incoming.lastModified
        version := existing.version + 1
        ttl := ttlNow },
     [])
  else if existing.lastModified < incoming.lastModified then
    ({ existing with
        clientId := incoming.clientId
        sessionId := incoming.sessionId
        focus := max existing.focus incoming.focus
        time := max existing.time incoming.time
        lastModified := incoming.lastModified
        version := existing.version + 1
        ttl := ttlNow
        conflictResolution := some "max_values" },
     [{ type := ConflictType.session_conflict
        clientId := existing.clientId
        sessionId := existing.sessionId
        rejected := none
        reason := none
        overwritten := some ⟨existing.focus, existing.time, existing.lastModified⟩ }])
  else
    (existing,
     [{ type := ConflictType.timestamp_conflict
        clientId := incoming.clientId
        sessionId := incoming.sessionId
        rejected := some true
        reason := some "older_timestamp"
        overwritten := none }])

/-- The wire row of an upload request as destructured by processRow; `focus`,
`time` and `lastModified` may be absent (JS `undefined`). -/
structure UploadRow where
  host : String
  date : String
  focus : Option Int
  time : Option Int
  sessionId : String
  lastModified : Option Int
deriving Repr, DecidableEq

/-- The normalized incoming row processRow builds before calling
resolveConflict: `focus || 0`, `time || 0`, `lastModified || now`. -/
def mkIncoming (clientId : String) (row : UploadRow) (batchId : String) (now : Int) :
    IncomingRow :=
  { clientId := clientId
    host := row.host
    date := row.date
    focus := row.focus.getD 0
    time := row.time.getD 0
    sessionId := row.sessionId
    lastModified := row.lastModified.getD now
    batchId := batchId }

/-- The per-row result entry processRow returns on success. -/
structure RowResult where
  pk : String
  version : Int
  conflicts : List ConflictRecord
deriving Repr, DecidableEq

/-- processRow from sync.js, against the store slot of the row's key, with no
concurrent writers. The slot (`Option StoredRecord`) is what the GetCommand
read returns; the conditional PutCommand `attribute_not_exists(PK) OR
version < :newVersion` succeeds exactly when the slot is empty or its
version is strictly below the resolved version, and a
ConditionalCheckFailedException re-invokes processRow on the same slot (the
source recursion has no attempt bound; the `fuel` argument counts attempts,
and `none` means the recursion consumed every attempt without producing a
result). On success it returns the row result together with the record the
put stored. -/
def processRowFuel (ttlNow : Int) (clientId : String) (row : UploadRow)
    (batchId : String) (now : Int) :
    Nat → Option StoredRecord → Option (RowResult × StoredRecord)
  | 0, _ => none
  | _ + 1, none =>
      let finalData : StoredRecord :=
        { pk := generatePK clientId row.host row.date
          clientId := clientId
          host := row.host
          date := row.date
          focus := row.focus.getD 0
          time := row.time.getD 0
          sessionId := row.sessionId
          lastModified := row.lastModified.getD now
          batchId := batchId
          version := 1
          ttl := ttlNow
          conflictResolution := none }
      some ({ pk := finalData.pk, version := 1, conflicts := [] }, finalData)
  | fuel + 1, some e =>
      let rc := resolveConflict ttlNow e (mkIncoming clientId row batchId now)
      if e.version < rc.1.version then
        some ({ pk := generatePK clientId row.host row.date
                version := rc.1.version
                conflicts := rc.2 }, rc.1)
      else
        processRowFuel ttlNow clientId row batchId now fuel (some e)

/-- The existing record of the spec's accumulate scenario:
focus 100, time 50, sessionId "A", lastModified 1000, version 3. -/
def exSameSession : StoredRecord :=
  { pk := "c1#h#20240102"
    clientId := "c1"
    host := "h"
    date := "20240102"
    focus := 100
    time := 50
    sessionId := "A"
    lastModified := 1000
    batchId := "b0"
    version := 3
    ttl := 0
    conflictResolution := none }

/-- The incoming row of the spec's accumulate scenario:
focus 30, time 10, sessionId "A", lastModified 1200. -/
def inSameSession : IncomingRow :=
  { clientId := "c1"
    host := "h"
    date := "20240102"
    focus := 30
    time := 10
    sessionId := "A"
    lastModified := 1200
    batchId := "b1" }

/-- An incoming row from a different session ("B") that is strictly newer
than exSameSession. -/
def inNewer : IncomingRow :=
  { clientId := "c2"
    host := "h"
    date := "20240102"
    focus := 80
    time := 10
    sessionId := "B"
    lastModified := 1200
    batchId := "b2" }

/-- The incoming row of the spec's reject scenario: focus 80, sessionId "B",
lastModified 900 — a different session that is not newer. -/
def inOlder : IncomingRow :=
  { clientId := "c2"
    host := "h"
    date := "20240102"
    focus := 80
    time := 10
    sessionId := "B"
    lastModified := 900
    batchId := "b3" }

/-- C1: a same-session merge accumulates: resolved focus/time are the sums,
lastModified is the max, version is existing.version + 1, and the conflict
list is empty. -/
theorem resolveConflict_same_session_accumulates
    (ttlNow : Int) (existing : StoredRecord) (incoming : IncomingRow)
    (h : existing.sessionId = incoming.sessionId) :
    (resolveConflict ttlNow existing incoming).1.focus
        = existing.focus + incoming.focus ∧
    (resolveConflict ttlNow existing incoming).1.time
        = existing.time + incoming.time ∧
    (resolveConflict ttlNow existing incoming).1.lastModified
        = max existing.lastModified incoming.lastModified ∧
    (resolveConflict ttlNow existing incoming).1.version
        = existing.version + 1 ∧
    (resolveConflict ttlNow existing incoming).2 = [] := by
  simp [resolveConflict, h]

/-- C1 witness: the spec scenario — existing {focus 100, time 50, sessionId
"A", lastModified 1000, version 3} merged with incoming {focus 30, time 10,
sessionId "A", lastModified 1200} yields {focus 130, time 60, version 4} and
zero conflicts. -/
theorem resolveConflict_same_session_accumulates_witness :
    (resolveConflict 7 exSameSession inSameSession).1.focus = 130 ∧
    (resolveConflict 7 exSameSession inSameSession).1.time = 60 ∧
    (resolveConflict 7 exSameSession inSameSession).1.lastModified = 1200 ∧
    (resolveConflict 7 exSameSession inSameSession).1.version = 4 ∧
    (resolveConflict 7 exSameSession inSameSession).2 = [] := by
  obtain ⟨h1, h2, h3, h4, h5⟩ :=
    resolveConflict_same_session_accumulates 7 exSameSession inSameSession rfl
  exact ⟨h1.trans (by decide), h2.trans (by decide), h3.trans (by decide),
    h4.trans (by decide), h5⟩

/-- C2: a cross-client merge with a strictly newer incoming row resolves to
the per-field maxima of focus and time, takes the incoming clientId and
sessionId, bumps the version, and records exactly one session_conflict
carrying the overwritten existing focus, time and lastModified. -/
theorem resolveConflict_newer_wins
    (ttlNow : Int) (existing : StoredRecord) (incoming : IncomingRow)
    (hs : existing.sessionId ≠ incoming.sessionId)
    (ht : existing.lastModified < incoming.lastModified) :
    (resolveConflict ttlNow existing incoming).1.focus
        = max existing.focus incoming.focus ∧
    (resolveConflict ttlNow existing incoming).1.time
        = max existing.time incoming.time ∧
    (resolveConflict ttlNow existing incoming).1.clientId = incoming.clientId ∧
    (resolveConflict ttlNow existing incoming).1.sessionId = incoming.sessionId ∧
    (resolveConflict ttlNow existing incoming).1.version = existing.version + 1 ∧
    (resolveConflict ttlNow existing incoming).2
        = [{ type := ConflictType.session_conflict
             clientId := existing.clientId
             sessionId := existing.sessionId
             rejected := none
             reason := none
             overwritten :=
               some ⟨existing.focus, existing.time, existing.lastModified⟩ }] := by
  simp [resolveConflict, hs, ht]

/-- C2 witness: exSameSession (session "A", lastModified 1000) merged with
inNewer (session "B", lastModified 1200, focus 80, time 10) keeps the maxima
100/50, adopts client c2 and session B, bumps the version to 4, and records
one session_conflict with the overwritten values 100/50/1000. -/
theorem resolveConflict_newer_wins_witness :
    (resolveConflict 7 exSameSession inNewer).1.focus = 100 ∧
    (resolveConflict 7 exSameSession inNewer).1.time = 50 ∧
    (resolveConflict 7 exSameSession inNewer).1.clientId = "c2" ∧
    (resolveConflict 7 exSameSession inNewer).1.sessionId = "B" ∧
    (resolveConflict 7 exSameSession inNewer).1.version = 4 ∧
    (resolveConflict 7 exSameSession inNewer).2
        = [{ type := ConflictType.session_conflict
             clientId := "c1"
             sessionId := "A"
             rejected := none
             reason := none
             overwritten := some ⟨100, 50, 1000⟩ }] := by
  obtain ⟨h1, h2, h3, h4, h5, h6⟩ :=
    resolveConflict_newer_wins 7 exSameSession inNewer (by decide) (by decide)
  exact ⟨h1.trans (by decide), h2.trans (by decide), h3, h4,
    h5.trans (by decide), h6.trans (by decide)⟩

/-- C3: a cross-client merge whose incoming row is not strictly newer is
rejected: the resolved record is the existing record itself (every field
identical), and exactly one timestamp_conflict with rejected = true is
recorded. -/
theorem resolveConflict_reject
    (ttlNow : Int) (existing : StoredRecord) (incoming : IncomingRow)
    (hs : existing.sessionId ≠ incoming.sessionId)
    (ht : incoming.lastModified ≤ existing.lastModified) :
    (resolveConflict ttlNow existing incoming).1 = existing ∧
    (resolveConflict ttlNow existing incoming).2
        = [{ type := ConflictType.timestamp_conflict
             clientId := incoming.clientId
             sessionId := incoming.sessionId
             rejected := some true
             reason := some "older_timestamp"
             overwritten := none }] := by
  simp [resolveConflict, hs, not_lt.mpr ht]

/-- C3 witness: the spec scenario — existing {focus 100, sessionId "A",
lastModified 1000} with incoming {focus 80, sessionId "B", lastModified 900}
resolves to the existing record unchanged plus one timestamp_conflict with
rejected = true. -/
theorem resolveConflict_reject_witness :
    (resolveConflict 7 exSameSession inOlder).1 = exSameSession ∧
    (resolveConflict 7 exSameSession inOlder).2
        = [{ type := ConflictType.timestamp_conflict
             clientId := "c2"
             sessionId := "B"
             rejected := some true
             reason := some "older_timestamp"
             overwritten := none }] := by
  obtain ⟨h1, h2⟩ := resolveConflict_reject 7 exSameSession inOlder (by decide) (by decide)
  exact ⟨h1, h2.trans (by decide)⟩

/-- C4: on every branch of the merge, if the incoming focus and time are
non-negative then the resolved focus and time are at least the existing
ones, and on the cross-client newer-wins branch they are at least the
pairwise maxima: the merge never reduces a key's accumulated totals. -/
theorem resolveConflict_monotone
    (ttlNow : Int) (existing : StoredRecord) (incoming : IncomingRow)
    (hf : 0 ≤ incoming.focus) (ht : 0 ≤ incoming.time) :
    existing.focus ≤ (resolveConflict ttlNow existing incoming).1.focus ∧
    existing.time ≤ (resolveConflict ttlNow existing incoming).1.time ∧
    (existing.sessionId ≠ incoming.sessionId →
      existing.lastModified < incoming.lastModified →
      max existing.focus incoming.focus
          ≤ (resolveConflict ttlNow existing incoming).1.focus ∧
      max existing.time incoming.time
          ≤ (resolveConflict ttlNow existing incoming).1.time) := by
  unfold resolveConflict
  by_cases hsess : existing.sessionId = incoming.sessionId
  · simp [hsess]
    constructor
    · omega
    · omega
  · by_cases hlm : existing.lastModified < incoming.lastModified
    · simp [hsess, hlm]
    · simp [hsess, hlm]

/-- C4 witness: with existing focus 100 / time 50 and incoming focus 80 /
time 10 from a newer foreign session, the resolved focus and time stay at or
above 100 and 50, and at or above the pairwise maxima. -/
theorem resolveConflict_monotone_witness :
    (0 : Int) ≤ inNewer.focus ∧ (0 : Int) ≤ inNewer.time ∧
    exSameSession.focus ≤ (resolveConflict 7 exSameSession inNewer).1.focus ∧
    exSameSession.time ≤ (resolveConflict 7 exSameSession inNewer).1.time ∧
    max exSameSession.focus inNewer.focus
        ≤ (resolveConflict 7 exSameSession inNewer).1.focus ∧
    max exSameSession.time inNewer.time
        ≤ (resolveConflict 7 exSameSession inNewer).1.time := by
  obtain ⟨h1, h2, h3⟩ :=
    resolveConflict_monotone 7 exSameSession inNewer (by decide) (by decide)
  obtain ⟨h4, h5⟩ := h3 (by decide) (by decide)
  exact ⟨by decide, by decide, h1, h2, h4, h5⟩

/-- C10: the merge never moves data to a different key: on every branch the
resolved record keeps the existing record's host, date and partition key,
and whenever processRow succeeds against an occupied store slot, the record
it persists carries that slot's partition key, host and date. -/
theorem merge_preserves_key (ttlNow : Int) (existing : StoredRecord) :
    (∀ incoming : IncomingRow,
      (resolveConflict ttlNow existing incoming).1.host = existing.host ∧
      (resolveConflict ttlNow existing incoming).1.date = existing.date ∧
      (resolveConflict ttlNow existing incoming).1.pk = existing.pk) ∧
    ∀ (clientId : String) (row : UploadRow) (batchId : String) (now : Int)
      (fuel : Nat) (res : RowResult) (stored : StoredRecord),
      processRowFuel ttlNow clientId row batchId now fuel (some existing)
          = some (res, stored) →
      stored.pk = existing.pk ∧ stored.host = existing.host ∧
        stored.date = existing.date := by
  have hrc : ∀ incoming : IncomingRow,
      (resolveConflict ttlNow existing incoming).1.host = existing.host ∧
      (resolveConflict ttlNow existing incoming).1.date = existing.date ∧
      (resolveConflict ttlNow existing incoming).1.pk = existing.pk := by
    intro incoming
    unfold resolveConflict
    by_cases hsess : existing.sessionId = incoming.sessionId
    · simp [hsess]
    · by_cases hlm : existing.lastModified < incoming.lastModified
      · simp [hsess, hlm]
      · simp [hsess, hlm]
  refine ⟨hrc, ?_⟩
  intro clientId row batchId now fuel
  induction fuel with
  | zero => intro res stored h; simp [processRowFuel] at h
  | succ n ih =>
      intro res stored h
      rw [processRowFuel] at h
      by_cases hv : existing.version
          < (resolveConflict ttlNow existing (mkIncoming clientId row batchId now)).1.version
      · rw [if_pos hv] at h
        obtain ⟨h1, h2⟩ := Prod.mk.injEq .. ▸ (Option.some.injEq .. ▸ h)
        obtain ⟨k1, k2, k3⟩ := hrc (mkIncoming clientId row batchId now)
        exact ⟨h2 ▸ k3, h2 ▸ k1, h2 ▸ k2⟩
      · rw [if_neg hv] at h
        exact ih res stored h

/-- C10 witness: a concrete successful accumulate run on a slot holding
exSameSession persists a record with exSameSession's partition key, host and
date. -/
theorem merge_preserves_key_witness :
    (resolveConflict 7 exSameSession inOlder).1.host = exSameSession.host ∧
    (processRowFuel 7 "c1"
        { host := "h", date := "20240102", focus := some 30, time := some 10,
          sessionId := "A", lastModified := some 1200 } "b1" 0 1
        (some exSameSession)).map (fun p => p.2.pk) = some exSameSession.pk := by
  have h := merge_preserves_key 7 exSameSession
  have h1 := (h.1 inOlder).1
  have h2 := h.2 "c1"
      { host := "h", date := "20240102", focus := some 30, time := some 10,
        sessionId := "A", lastModified := some 1200 } "b1" 0 1
  refine ⟨h1, ?_⟩
  have hrun : processRowFuel 7 "c1"
      { host := "h", date := "20240102", focus := some 30, time := some 10,
        sessionId := "A", lastModified := some 1200 } "b1" 0 1
      (some exSameSession)
      = some ({ pk := "c1#h#20240102", version := 4,
                conflicts := [] },
              { pk := "c1#h#20240102", clientId := "c1", host := "h",
                date := "20240102", focus := 130, time := 60,
                sessionId := "A", lastModified := 1200, batchId := "b0",
                version := 4, ttl := 7, conflictResolution := none }) := by
    decide
  rw [hrun]
  have := h2 _ _ hrun
  simpa using this.1

/-- Helper: on the reject branch the resolved record is the existing record,
so its version equals the existing version. -/
lemma resolveConflict_reject_resolved_eq (ttlNow : Int) (existing : StoredRecord)
    (incoming : IncomingRow) (hs : existing.sessionId ≠ incoming.sessionId)
    (ht : ¬ existing.lastModified < incoming.lastModified) :
    (resolveConflict ttlNow existing incoming).1 = existing := by
  simp [resolveConflict, hs, ht]

/-- Helper: whenever an upload row from a foreign session is not strictly
newer than the occupied slot, processRow never completes, for any amount of
fuel: the reject branch keeps the existing version, the conditional write
`version < :newVersion` therefore fails, and the retry re-reads the same
slot. -/
lemma processRowFuel_reject_stuck (ttlNow : Int) (clientId : String)
    (row : UploadRow) (batchId : String) (now : Int) (existing : StoredRecord)
    (hs : existing.sessionId ≠ row.sessionId)
    (ht : ¬ existing.lastModified < (row.lastModified.getD now)) :
    ∀ fuel : Nat,
      processRowFuel ttlNow clientId row batchId now fuel (some existing) = none := by
  intro fuel
  induction fuel with
  | zero => rfl
  | succ n ih =>
      have hres : (resolveConflict ttlNow existing
          (mkIncoming clientId row batchId now)).1 = existing :=
        resolveConflict_reject_resolved_eq ttlNow existing _ (by simpa [mkIncoming] using hs)
          (by simpa [mkIncoming] using ht)
      rw [processRowFuel, if_neg (by rw [hres]; exact lt_irrefl _), ih]

/-- The upload row of the reject scenario: session "B", lastModified 900,
against a slot whose record has session "A" and lastModified 1000. -/
def rowReject : UploadRow :=
  { host := "h"
    date := "20240102"
    focus := some 80
    time := some 10
    sessionId := "B"
    lastModified := some 900 }

/-- C5: processing an uploaded row does NOT always terminate with a result.
On the reject branch the resolved record keeps the existing record's
version, the version-guarded conditional write therefore fails on every
attempt, and the retry from a fresh read of the unchanged slot repeats the
same rejection: at this concrete input, no finite number of attempts
produces a result. -/
theorem processRow_reject_never_completes :
    ∀ fuel : Nat,
      processRowFuel 7 "c2" rowReject "b3" 5000 fuel (some exSameSession) = none :=
  processRowFuel_reject_stuck 7 "c2" rowReject "b3" 5000 exSameSession
    (by decide) (by decide)

/-- The row shape flowing through the download pipeline: downloadHotData and
downloadColdData both project stored records to host/date/focus/time, so a
projected row's `lastModified` is absent (none); deduplicateRows itself is
written for rows that may carry one. -/
structure DlRow where
  host : String
  date : String
  focus : Int
  time : Int
  lastModified : Option Int
deriving Repr, DecidableEq

/-- A record inside a monthly cold-archive blob, as archiveToS3 writes it. -/
structure ArchiveRecord where
  host : String
  date : String
  focus : Int
  time : Int
  lastModified : Int
  sessionId : String
deriving Repr, DecidableEq

/-- Lexicographic order on char lists by code point, the order JS string
comparison uses on the YYYYMMDD date strings of this system. -/
def charsLe : List Char → List Char → Bool
  | [], _ => true
  | _ :: _, [] => false
  | a :: as, b :: bs =>
      if a.val < b.val then true
      else if b.val < a.val then false
      else charsLe as bs

/-- JS `a <= b` on strings. -/
def strLe (a b : String) : Bool := charsLe a.toList b.toList

/-- downloadHotData from sync.js: the hot-table items of the client within
the date range, projected to host/date/focus/time — the projection drops
`lastModified`. -/
def downloadHotData (items : List StoredRecord) (startStr endStr : String) :
    List DlRow :=
  (items.filter (fun it =>
      strLe startStr it.date && strLe it.date endStr)).map
    (fun it =>
      { host := it.host, date := it.date, focus := it.focus, time := it.time,
        lastModified := none })

/-- downloadColdData from sync.js: the archive-blob records within the date
range, projected to host/date/focus/time — the projection likewise drops
`lastModified`. Date-object range comparison is embedded as the equivalent
YYYYMMDD string comparison. -/
def downloadColdData (records : List ArchiveRecord) (startStr endStr : String) :
    List DlRow :=
  (records.filter (fun r =>
      strLe startStr r.date && strLe r.date endStr)).map
    (fun r =>
      { host := r.host, date := r.date, focus := r.focus, time := r.time,
        lastModified := none })

/-- The key deduplicateRows groups by: host + "#" + date. -/
def rowKey (r : DlRow) : String := r.host ++ "#" ++ r.date

/-- The JS comparison `row.lastModified > existing.lastModified`: false
whenever either side is undefined. -/
def jsGtOpt : Option Int → Option Int → Bool
  | some a, some b => decide (b < a)
  | _, _ => false

/-- JS Map.set on an insertion-ordered association list: updating an
existing key keeps its position, a new key is appended. -/
def mapSet (m : List (String × DlRow)) (k : String) (v : DlRow) :
    List (String × DlRow) :=
  if m.any (fun p => p.1 == k) then
    m.map (fun p => if p.1 == k then (k, v) else p)
  else m ++ [(k, v)]

/-- One iteration of deduplicateRows' forEach body. -/
def dedupStep (m : List (String × DlRow)) (row : DlRow) :
    List (String × DlRow) :=
  match m.find? (fun p => p.1 == rowKey row) with
  | none => mapSet m (rowKey row) row
  | some p => if jsGtOpt row.lastModified p.2.lastModified then
      mapSet m (rowKey row) row
    else m

/-- deduplicateRows from sync.js: fold the rows into the keyed map, then
take the map's values in insertion order. -/
def deduplicateRows (rows : List DlRow) : List DlRow :=
  (rows.foldl dedupStep []).map Prod.snd

/-- Stable insertion into a date-ascending list, matching the stable JS sort
with comparator `a.date.localeCompare(b.date)`. -/
def insertByDate (r : DlRow) : List DlRow → List DlRow
  | [] => [r]
  | x :: xs => if strLe x.date r.date then x :: insertByDate r xs
    else r :: x :: xs

/-- Date-ascending stable sort of the deduplicated rows. -/
def sortByDate (rows : List DlRow) : List DlRow :=
  rows.foldl (fun acc r => insertByDate r acc) []

/-- downloadData from sync.js: hot rows, then cold rows when the range
reaches past the hot window (`includeCold`), deduplicated and sorted by
date. -/
def downloadData (hotItems : List StoredRecord) (coldRecords : List ArchiveRecord)
    (startStr endStr : String) (includeCold : Bool) : List DlRow :=
  let hot := downloadHotData hotItems startStr endStr
  let cold := if includeCold then downloadColdData coldRecords startStr endStr else []
  sortByDate (deduplicateRows (hot ++ cold))

/-- A hot-tier record for the download scenario: focus 1, lastModified 100. -/
def hotDup : StoredRecord :=
  { pk := "c1#h#20240102"
    clientId := "c1"
    host := "h"
    date := "20240102"
    focus := 1
    time := 1
    sessionId := "A"
    lastModified := 100
    batchId := "b0"
    version := 1
    ttl := 0
    conflictResolution := none }

/-- A cold-tier record for the same (host, date) with a strictly greater
lastModified: focus 2, lastModified 200. -/
def coldDup : ArchiveRecord :=
  { host := "h"
    date := "20240102"
    focus := 2
    time := 2
    lastModified := 200
    sessionId := "B" }

/-- C6: the download path does NOT keep the duplicate with the greatest
lastModified. Both tier readers strip `lastModified` before deduplication,
so the JS comparison `row.lastModified > existing.lastModified` is
`undefined > undefined` = false and the first-encountered (hot) entry always
wins: here the hot row (focus 1, source lastModified 100) is returned even
though the cold duplicate has the greater lastModified 200. -/
theorem downloadData_keeps_first_not_latest :
    downloadData [hotDup] [coldDup] "20240101" "20240131" true
        = [{ host := "h", date := "20240102", focus := 1, time := 1,
             lastModified := none }] ∧
    hotDup.lastModified < coldDup.lastModified := by
  decide

/-- A client-side row (timer.core.Row) as queued by BackgroundSyncService. -/
structure ClientRow where
  host : String
  date : String
  focus : Int
  time : Int
  run : Option Int
deriving Repr, DecidableEq

/-- A Pending Batch of the outbound queue (PendingSync). -/
structure PendingSync where
  rows : List ClientRow
  timestamp : Int
  retryCount : Nat
  batchId : String
deriving Repr, DecidableEq

/-- BackgroundSyncService.maxRetries. -/
def maxRetries : Nat := 3

/-- BackgroundSyncService.batchSize. -/
def batchSize : Nat := 50

/-- BackgroundSyncService.maxQueueSize. -/
def maxQueueSize : Nat := 1000

/-- The per-cycle batch cap of processQueue: Math.ceil(batchSize / 10). -/
def maxBatches : Nat := (batchSize + 10 - 1) / 10

/-- The `while (syncQueue.length > maxQueueSize) syncQueue.shift()` loop of
queueForSync: drop from the head until the queue is within the cap. -/
def trimQueue : List PendingSync → List PendingSync
  | [] => []
  | x :: xs =>
      if maxQueueSize < xs.length + 1 then trimQueue xs
      else x :: xs

/-- queueForSync from BackgroundSyncService: returns the queue unchanged
when the service is disabled or the rows are empty, otherwise appends a
fresh Pending Batch (retryCount 0) and trims to the cap. -/
def queueForSync (isEnabled : Bool) (q : List PendingSync) (rows : List ClientRow)
    (ts : Int) (batchId : String) : List PendingSync :=
  if ¬ isEnabled ∨ rows = [] then q
  else trimQueue (q ++ [{ rows := rows, timestamp := ts, retryCount := 0,
                          batchId := batchId }])

/-- Helper: trimming leaves a queue within the cap untouched. -/
lemma trimQueue_of_le (l : List PendingSync) (h : l.length ≤ maxQueueSize) :
    trimQueue l = l := by
  cases l with
  | nil => rfl
  | cons x xs =>
      rw [trimQueue, if_neg]
      simp only [List.length_cons] at h
      omega

/-- Helper: the trimmed queue's length is the minimum of the original length
and the cap. -/
lemma trimQueue_length (l : List PendingSync) :
    (trimQueue l).length = min l.length maxQueueSize := by
  induction l with
  | nil => simp [trimQueue]
  | cons x xs ih =>
      rw [trimQueue]
      by_cases h : maxQueueSize < xs.length + 1
      · rw [if_pos h, ih]
        simp only [List.length_cons]
        omega
      · rw [if_neg h]
        simp only [List.length_cons]
        omega

/-- Helper: a queue exactly one over the cap loses exactly its head. -/
lemma trimQueue_of_one_over (l : List PendingSync)
    (h : l.length = maxQueueSize + 1) : trimQueue l = l.tail := by
  cases l with
  | nil => simp at h
  | cons x xs =>
      rw [trimQueue, if_pos]
      · exact trimQueue_of_le xs (by simp at h; omega)
      · simp at h; omega

/-- C7: after an enqueue the outbound queue holds at most maxQueueSize
(1000) batches, and when the queue already held exactly 1000 batches the
enqueue evicts precisely the oldest batch (the head) and retains every newer
batch plus the new one. -/
theorem queueForSync_bounded (q : List PendingSync) (rows : List ClientRow)
    (ts : Int) (batchId : String) (hrows : rows ≠ []) :
    (queueForSync true q rows ts batchId).length ≤ maxQueueSize ∧
    (q.length = maxQueueSize →
      queueForSync true q rows ts batchId
        = q.tail ++ [{ rows := rows, timestamp := ts, retryCount := 0,
                       batchId := batchId }]) := by
  have hq : queueForSync true q rows ts batchId
      = trimQueue (q ++ [{ rows := rows, timestamp := ts, retryCount := 0,
                           batchId := batchId }]) := by
    rw [queueForSync, if_neg]
    simp [hrows]
  constructor
  · rw [hq, trimQueue_length]
    omega
  · intro hlen
    rw [hq, trimQueue_of_one_over _ (by simp [hlen])]
    cases q with
    | nil => simp [maxQueueSize] at hlen
    | cons a as => simp

/-- An arbitrary concrete row for the queue scenarios. -/
def demoRow : ClientRow :=
  { host := "h", date := "20240102", focus := 5, time := 5, run := none }

/-- An arbitrary concrete batch for the queue scenarios. -/
def demoBatch : PendingSync :=
  { rows := [demoRow], timestamp := 0, retryCount := 0, batchId := "b" }

/-- C7 witness: enqueueing onto a queue of exactly 1000 batches evicts the
oldest batch and keeps the length at 1000. -/
theorem queueForSync_bounded_witness :
    ([demoRow] : List ClientRow) ≠ [] ∧
    (queueForSync true (List.replicate maxQueueSize demoBatch) [demoRow] 0
        "b1").length ≤ maxQueueSize ∧
    queueForSync true (List.replicate maxQueueSize demoBatch) [demoRow] 0 "b1"
      = (List.replicate maxQueueSize demoBatch).tail
          ++ [{ rows := [demoRow], timestamp := 0, retryCount := 0,
                batchId := "b1" }] := by
  obtain ⟨h1, h2⟩ := queueForSync_bounded (List.replicate maxQueueSize demoBatch)
    [demoRow] 0 "b1" (by simp)
  exact ⟨by simp, h1, h2 (by simp)⟩

/-- One processQueue cycle of BackgroundSyncService, from the point where
the guard has passed. `oracle` abstracts whether the awaited syncBatch call
of a given batch succeeds in this cycle (each batch is attempted at most
once per cycle). The JS loop runs while the queue is non-empty and fewer
than maxBatches batches were processed; on success the head is removed and
totalSynced grows by its row count, on failure the head's retryCount is
incremented and the batch is either dropped (counting its rows into
totalFailed, the loop continuing) when the count reaches maxRetries, or
moved to the tail with the cycle stopped. Returns the queue together with
the totalSynced and totalFailed counters. -/
def processQueueLoop (oracle : PendingSync → Bool) :
    List PendingSync → Nat → Nat → Nat → List PendingSync × Nat × Nat
  | [], _, synced, failed => ([], synced, failed)
  | b :: rest, processed, synced, failed =>
      if maxBatches ≤ processed then (b :: rest, synced, failed)
      else if oracle b then
        processQueueLoop oracle rest (processed + 1) (synced + b.rows.length) failed
      else if maxRetries ≤ b.retryCount + 1 then
        processQueueLoop oracle rest processed synced (failed + b.rows.length)
      else
        (rest ++ [{ b with retryCount := b.retryCount + 1 }], synced, failed)

/-- processQueue from BackgroundSyncService: a no-op while already
processing, offline, or with an empty queue; otherwise one loop cycle
starting from processedCount 0. -/
def processQueue (oracle : PendingSync → Bool) (isProcessing isOnline : Bool)
    (q : List PendingSync) (synced failed : Nat) : List PendingSync × Nat × Nat :=
  if isProcessing ∨ q = [] ∨ ¬ isOnline then (q, synced, failed)
  else processQueueLoop oracle q 0 synced failed

/-- Helper: the totalFailed counter never decreases across a cycle. -/
lemma processQueueLoop_failed_mono (oracle : PendingSync → Bool)
    (q : List PendingSync) :
    ∀ processed synced failed,
      failed ≤ (processQueueLoop oracle q processed synced failed).2.2 := by
  induction q with
  | nil => intro processed synced failed; simp [processQueueLoop]
  | cons b rest ih =>
      intro processed synced failed
      rw [processQueueLoop]
      by_cases h1 : maxBatches ≤ processed
      · simp [h1]
      · rw [if_neg h1]
        by_cases h2 : oracle b
        · rw [if_pos h2]; exact ih _ _ _
        · rw [if_neg h2]
          by_cases h3 : maxRetries ≤ b.retryCount + 1
          · rw [if_pos h3]
            exact le_trans (Nat.le_add_right _ _) (ih _ _ _)
          · simp [h3]

/-- Helper: every batch in the queue a cycle leaves behind descends from a
batch of the input queue — same batchId and rows, retryCount incremented at
most once. -/
lemma processQueueLoop_descends (oracle : PendingSync → Bool)
    (q : List PendingSync) :
    ∀ processed synced failed x,
      x ∈ (processQueueLoop oracle q processed synced failed).1 →
      ∃ y ∈ q, x.batchId = y.batchId ∧ x.rows = y.rows ∧
        x.retryCount ≤ y.retryCount + 1 := by
  induction q with
  | nil => intro processed synced failed x hx; simp [processQueueLoop] at hx
  | cons b rest ih =>
      intro processed synced failed x hx
      rw [processQueueLoop] at hx
      by_cases h1 : maxBatches ≤ processed
      · rw [if_pos h1] at hx
        exact ⟨x, hx, rfl, rfl, Nat.le_succ _⟩
      · rw [if_neg h1] at hx
        by_cases h2 : oracle b
        · rw [if_pos h2] at hx
          obtain ⟨y, hy, hxy⟩ := ih _ _ _ x hx
          exact ⟨y, List.mem_cons_of_mem _ hy, hxy⟩
        · rw [if_neg h2] at hx
          by_cases h3 : maxRetries ≤ b.retryCount + 1
          · rw [if_pos h3] at hx
            obtain ⟨y, hy, hxy⟩ := ih _ _ _ x hx
            exact ⟨y, List.mem_cons_of_mem _ hy, hxy⟩
          · rw [if_neg h3] at hx
            rcases List.mem_append.mp hx with hx | hx
            · exact ⟨x, List.mem_cons_of_mem _ hx, rfl, rfl, Nat.le_succ _⟩
            · simp only [List.mem_singleton] at hx
              exact ⟨b, List.mem_cons_self .., by simp [hx]⟩

/-- Helper: a cycle preserves the queue invariant that every batch has
failed fewer than maxRetries times — a requeued batch is admitted only when
its incremented count is still below the ceiling. -/
lemma processQueueLoop_invariant (oracle : PendingSync → Bool)
    (q : List PendingSync) :
    ∀ processed synced failed,
      (∀ x ∈ q, x.retryCount < maxRetries) →
      ∀ x ∈ (processQueueLoop oracle q processed synced failed).1,
        x.retryCount < maxRetries := by
  induction q with
  | nil => intro processed synced failed hinv x hx; simp [processQueueLoop] at hx
  | cons b rest ih =>
      intro processed synced failed hinv x hx
      rw [processQueueLoop] at hx
      by_cases h1 : maxBatches ≤ processed
      · rw [if_pos h1] at hx
        exact hinv x hx
      · rw [if_neg h1] at hx
        by_cases h2 : oracle b
        · rw [if_pos h2] at hx
          exact ih _ _ _ (fun y hy => hinv y (List.mem_cons_of_mem _ hy)) x hx
        · rw [if_neg h2] at hx
          by_cases h3 : maxRetries ≤ b.retryCount + 1
          · rw [if_pos h3] at hx
            exact ih _ _ _ (fun y hy => hinv y (List.mem_cons_of_mem _ hy)) x hx
          · rw [if_neg h3] at hx
            rcases List.mem_append.mp hx with hx' | hx'
            · exact hinv x (List.mem_cons_of_mem _ hx')
            · simp only [List.mem_singleton] at hx'
              subst hx'
              simp only
              omega

/-- C8: the retry policy of a processQueue cycle. With a failing head batch:
if the incremented retry count is still below maxRetries the batch moves
from the head to the tail with its count incremented and the cycle stops
(nothing else is touched); once the incremented count reaches maxRetries
the batch is removed — its batchId is gone from the resulting queue — and
its rows are added to the permanently-failed counter. Moreover a cycle only
ever leaves behind batches whose retryCount stays below maxRetries when all
input batches were below it, so no batch is ever attempted a
(maxRetries + 1)-th time. -/
theorem processQueue_retry_ceiling (oracle : PendingSync → Bool)
    (b : PendingSync) (rest : List PendingSync) (synced failed : Nat)
    (hfail : oracle b = false) :
    (b.retryCount + 1 < maxRetries →
      processQueue oracle false true (b :: rest) synced failed
        = (rest ++ [{ b with retryCount := b.retryCount + 1 }], synced, failed)) ∧
    (maxRetries ≤ b.retryCount + 1 →
      failed + b.rows.length
          ≤ (processQueue oracle false true (b :: rest) synced failed).2.2 ∧
      ((∀ x ∈ rest, x.batchId ≠ b.batchId) →
        ∀ x ∈ (processQueue oracle false true (b :: rest) synced failed).1,
          x.batchId ≠ b.batchId)) ∧
    ((∀ x ∈ b :: rest, x.retryCount < maxRetries) →
      ∀ x ∈ (processQueue oracle false true (b :: rest) synced failed).1,
        x.retryCount < maxRetries) := by
  have hstep : processQueue oracle false true (b :: rest) synced failed
      = processQueueLoop oracle (b :: rest) 0 synced failed := by
    rw [processQueue, if_neg]; simp
  have hguard : ¬ maxBatches ≤ (0 : Nat) := by simp [maxBatches, batchSize]
  refine ⟨?_, ?_, ?_⟩
  · intro hlow
    rw [hstep, processQueueLoop, if_neg hguard, if_neg (by simp [hfail]),
      if_neg (by omega)]
  · intro hceil
    have hrew : processQueue oracle false true (b :: rest) synced failed
        = processQueueLoop oracle rest 0 synced (failed + b.rows.length) := by
      rw [hstep, processQueueLoop, if_neg hguard, if_neg (by simp [hfail]),
        if_pos hceil]
    constructor
    · rw [hrew]
      exact processQueueLoop_failed_mono oracle rest 0 synced (failed + b.rows.length)
    · intro hfresh x hx
      rw [hrew] at hx
      obtain ⟨y, hy, hid, -⟩ := processQueueLoop_descends oracle rest _ _ _ x hx
      exact hid ▸ hfresh y hy
  · intro hinv x hx
    rw [hstep] at hx
    exact processQueueLoop_invariant oracle (b :: rest) _ _ _ hinv x hx

/-- C8 witness: a first failed delivery of a fresh batch (retryCount 0)
moves it to the tail with retryCount 1 and stops the cycle. -/
theorem processQueue_retry_ceiling_witness :
    (fun _ : PendingSync => false) demoBatch = false ∧
    processQueue (fun _ => false) false true [demoBatch] 0 0
      = ([{ demoBatch with retryCount := 1 }], 0, 0) := by
  obtain ⟨h1, -, -⟩ := processQueue_retry_ceiling (fun _ => false) demoBatch [] 0 0 rfl
  exact ⟨rfl, h1 (by decide)⟩

/-- The WebSocketConnectionState of HybridSyncManager. -/
inductive ConnState where
  | disconnected
  | connecting
  | connected
  | error
deriving Repr, DecidableEq

/-- HybridSyncManager.baseBackoffMs. -/
def baseBackoffMs : Nat := 1000

/-- HybridSyncManager.maxBackoffMs. -/
def maxBackoffMs : Nat := 60000

/-- The state of HybridSyncManager the transport claims are about:
connection state, whether the poll interval is running, the back-off
multiplier, the delay of the currently scheduled reconnect attempt (none
when no reconnect is pending), and the enabled flag. -/
structure HybridState where
  connectionState : ConnState
  polling : Bool
  backoffMultiplier : Nat
  scheduledDelay : Option Nat
  isEnabled : Bool
deriving Repr, DecidableEq

/-- startPolling: a no-op when the interval is already running, otherwise it
starts it — either way polling runs afterwards. -/
def startPolling (s : HybridState) : HybridState := { s with polling := true }

/-- stopPolling. -/
def stopPolling (s : HybridState) : HybridState := { s with polling := false }

/-- scheduleReconnect from HybridSyncManager: when enabled, schedule the
next attempt after min(baseBackoffMs * backoffMultiplier, maxBackoffMs) and
double the multiplier, capping it at 60. -/
def scheduleReconnect (s : HybridState) : HybridState :=
  if s.isEnabled then
    { s with
        scheduledDelay :=
          some (min (baseBackoffMs * s.backoffMultiplier) maxBackoffMs)
        backoffMultiplier := min (s.backoffMultiplier * 2) 60 }
  else s

/-- The websocket.onopen handler: state connected, back-off reset, polling
stopped. -/
def wsOnOpen (s : HybridState) : HybridState :=
  stopPolling { s with connectionState := ConnState.connected, backoffMultiplier := 1 }

/-- The websocket.onclose handler: state disconnected, polling started (if
not already), and a reconnect scheduled. -/
def wsOnClose (s : HybridState) : HybridState :=
  scheduleReconnect (startPolling { s with connectionState := ConnState.disconnected })

/-- Helper: min(base * min(m, 60), maxBackoff) collapses to
min(base * m, maxBackoff) because base * 60 is exactly maxBackoff. -/
lemma backoff_cap_collapse (m : Nat) :
    min (baseBackoffMs * min m 60) maxBackoffMs
      = min (baseBackoffMs * m) maxBackoffMs := by
  simp only [baseBackoffMs, maxBackoffMs]
  omega

/-- Helper: iterating scheduleReconnect after a close that found the
multiplier reset keeps the manager enabled, holds the multiplier at
min(2 ^ (k + 1), 60), and schedules the k-th attempt after
min(base * 2 ^ k, maxBackoff). -/
lemma scheduleReconnect_iterate (s : HybridState) (hen : s.isEnabled = true)
    (hmul : s.backoffMultiplier = 1) :
    ∀ k : Nat,
      (scheduleReconnect^[k] (wsOnClose s)).isEnabled = true ∧
      (scheduleReconnect^[k] (wsOnClose s)).backoffMultiplier
          = min (2 ^ (k + 1)) 60 ∧
      (scheduleReconnect^[k] (wsOnClose s)).scheduledDelay
          = some (min (baseBackoffMs * 2 ^ k) maxBackoffMs) := by
  intro k
  induction k with
  | zero =>
      refine ⟨?_, ?_, ?_⟩ <;>
        simp [wsOnClose, scheduleReconnect, startPolling, hen, hmul]
  | succ n ih =>
      obtain ⟨ih1, ih2, ih3⟩ := ih
      rw [Function.iterate_succ_apply', scheduleReconnect, if_pos ih1]
      refine ⟨ih1, ?_, ?_⟩
      · show min ((scheduleReconnect^[n] (wsOnClose s)).backoffMultiplier * 2) 60
            = min (2 ^ (n + 1 + 1)) 60
        rw [ih2]
        have h2 : 2 ^ (n + 1 + 1) = 2 ^ (n + 1) * 2 := by ring
        omega
      · show (some (min (baseBackoffMs
              * (scheduleReconnect^[n] (wsOnClose s)).backoffMultiplier)
              maxBackoffMs) : Option Nat)
            = some (min (baseBackoffMs * 2 ^ (n + 1)) maxBackoffMs)
        rw [ih2, backoff_cap_collapse]

/-- C9: a close event arriving while connected (back-off multiplier reset to
1 by the successful connect) moves the manager to disconnected, leaves
polling running, and schedules a reconnect after exactly the base delay;
each subsequent reconnect schedule (attempt k) waits
min(base * 2 ^ k, maxBackoff) and the multiplier stays capped at 60. -/
theorem transport_close_starts_polling_and_backoff (s : HybridState)
    (_hconn : s.connectionState = ConnState.connected)
    (hmul : s.backoffMultiplier = 1) (hen : s.isEnabled = true) :
    (wsOnClose s).connectionState = ConnState.disconnected ∧
    (wsOnClose s).polling = true ∧
    (wsOnClose s).scheduledDelay = some baseBackoffMs ∧
    ∀ k : Nat,
      (scheduleReconnect^[k] (wsOnClose s)).scheduledDelay
          = some (min (baseBackoffMs * 2 ^ k) maxBackoffMs) ∧
      (scheduleReconnect^[k] (wsOnClose s)).backoffMultiplier ≤ 60 := by
  have hiter := scheduleReconnect_iterate s hen hmul
  refine ⟨?_, ?_, ?_, ?_⟩
  · simp [wsOnClose, scheduleReconnect, startPolling, hen]
  · simp [wsOnClose, scheduleReconnect, startPolling, hen]
  · have h0 := (hiter 0).2.2
    simpa [baseBackoffMs, maxBackoffMs] using h0
  · intro k
    exact ⟨(hiter k).2.2, by rw [(hiter k).2.1]; omega⟩

/-- A concrete connected manager state with the multiplier reset. -/
def connectedState : HybridState :=
  { connectionState := ConnState.connected
    polling := false
    backoffMultiplier := 1
    scheduledDelay := none
    isEnabled := true }

/-- C9 witness: from the concrete connected state, a close event transitions
to disconnected, turns polling on, schedules the first reconnect after the
1000 ms base delay, and the seventh subsequent schedule is capped at the
60000 ms maximum. -/
theorem transport_close_starts_polling_and_backoff_witness :
    (wsOnClose connectedState).connectionState = ConnState.disconnected ∧
    (wsOnClose connectedState).polling = true ∧
    (wsOnClose connectedState).scheduledDelay = some 1000 ∧
    (scheduleReconnect^[5] (wsOnClose connectedState)).scheduledDelay
        = some 32000 ∧
    (scheduleReconnect^[7] (wsOnClose connectedState)).scheduledDelay
        = some 60000 := by
  obtain ⟨h1, h2, h3, h4⟩ :=
    transport_close_starts_polling_and_backoff connectedState rfl rfl rfl
  refine ⟨h1, h2, h3.trans (by decide), ?_, ?_⟩
  · exact (h4 5).1.trans (by decide)
  · exact (h4 7).1.trans (by decide)

end SyncEngine
